import Mathlib

/-!
Verification of `ble_sniffer.py` (with its collaborator `config.py`).

The Python program is shallowly embedded below:
* Python `str.lower()` is modelled by `pyLower` (character-wise `Char.toLower`,
  adequate for the ASCII MAC-address strings the program compares);
* Python's truthiness-based `x or d` on optional strings is `pyOrStr`;
* the thread-safe `queue.Queue` is modelled by its item list (`queuePut`);
* the CSV file handle is modelled by `FileState` (rows written but not yet
  flushed live in `pending`; `fileFlush` moves them to `flushed`);
* each `print` call appends a `ConsoleLine`, whose `render` gives the exact
  text the Python code prints;
* exceptions raised by the BLE library or by the CSV write are injected
  through the `Packet` fields `rssi : Except String Int` (the attribute read
  may raise) and `writeFails : Option String` (the row write may raise);
* `detection_body` is the body of the `try:` block of `detection_callback`,
  returning the mutated state together with the exception, if one was raised
  part-way; `detection_callback` adds the `except Exception` handler.
-/

/-- Python `s.lower()` for the ASCII strings handled by the sniffer:
lowercase every character. -/
def pyLower (s : String) : String :=
  ⟨s.data.map Char.toLower⟩

/-- Python `x or d` where `x` is an optional string: `None` and the empty
string are falsy, so both fall back to the default `d`. -/
def pyOrStr (x : Option String) (d : String) : String :=
  match x with
  | none => d
  | some s => if s = "" then d else s

/-- The event dictionary put on `EVENT_QUEUE` (and the data carried by each
CSV row and console event line): timestamp, normalized MAC, RSSI, name. -/
structure Event where
  timestamp_ns : Nat
  mac : String
  rssi : Int
  name : String
deriving Repr, DecidableEq

/-- `EVENT_QUEUE = Queue()`: the `queue.Queue` default `maxsize` is `0`,
and in Python a `maxsize <= 0` means the queue capacity is infinite. -/
def EVENT_QUEUE_maxsize : Nat := 0

/-- `EVENT_QUEUE.put(item)` with the default infinite capacity: the item is
always appended at the back; the call never blocks, never drops, and never
raises `Full`. -/
def queuePut (items : List Event) (e : Event) : List Event :=
  items ++ [e]

/-- Putting a list of events one by one. -/
def queuePutAll (items : List Event) (es : List Event) : List Event :=
  es.foldl queuePut items

deriving instance DecidableEq for Except

/-- One advertisement delivered to `detection_callback`, together with the
environment readings made while handling it: `device.address` and
`device.name` (either may be `None`), the `advertisement_data.rssi` read
(which may raise inside the callback), the `time.time_ns()` clock value, and
whether the CSV row write raises. -/
structure Packet where
  address : Option String
  name : Option String
  rssi : Except String Int
  timestamp_ns : Nat
  writeFails : Option String
deriving Repr, DecidableEq

/-- One `print` call of the program, with its arguments; `render` recovers
the exact printed text. -/
inductive ConsoleLine where
  | eventLine (timestamp_ns : Nat) (mac : String) (rssi : Int) (name : String)
  | packetError (exc : String)
  | noTargets
  | scanStarted
  | scanError (exc : String)
  | stoppedByUser
  | unexpectedError (exc : String)
deriving Repr, DecidableEq

/-- The exact text each `print` call emits. -/
def ConsoleLine.render : ConsoleLine → String
  | .eventLine t m r n =>
      s!"Time Stamp (ns): {t} | MAC:{m} | RSSI: {r} | Name: {n}"
  | .packetError exc => s!"Error processing advertisement: {exc}"
  | .noTargets => "No target MACs found in config.TARGET_MACS. Nothing to scan for."
  | .scanStarted => "BLE scanning started. Press Ctrl+C to stop."
  | .scanError exc => s!"BLE scanning error: {exc}"
  | .stoppedByUser => "Scanning stopped by user."
  | .unexpectedError exc => s!"Unexpected error: {exc}"

/-- The open CSV file: `flushed` rows have reached the file via `f.flush()`;
`pending` rows were written by `writer.writerow` but not yet flushed. -/
structure FileState where
  flushed : List (List String)
  pending : List (List String)
deriving Repr, DecidableEq

/-- `f.flush()`: every buffered row reaches the file, in write order. -/
def fileFlush (fs : FileState) : FileState :=
  { flushed := fs.flushed ++ fs.pending, pending := [] }

/-- The mutable state touched by `detection_callback`: the console output so
far, the contents of `EVENT_QUEUE`, and the CSV file. -/
structure SnifferState where
  console : List ConsoleLine
  queue : List Event
  file : FileState
deriving Repr, DecidableEq

/-- The header row `["timestamp_ns", "mac", "rssi", "name"]` written at the
top of the CSV file. -/
def header : List String :=
  ["timestamp_ns", "mac", "rssi", "name"]

/-- The CSV row `writer.writerow([timestamp_ns, mac, rssi, device_name])`
writes for an event (the csv module renders each value as text). -/
def eventToRow (e : Event) : List String :=
  [toString e.timestamp_ns, e.mac, toString e.rssi, e.name]

/-- `mac = (device.address or "").lower()`: the normalized identifier of a
packet. -/
def macOf (p : Packet) : String :=
  pyLower (pyOrStr p.address (""))

/-- The body of the `try:` block inside `detection_callback`, line for line:
normalize the MAC, and when it is in `target_macs` read the clock and the
RSSI, print the event line, enqueue the event, write and flush the CSV row.
Returns the state as mutated so far, paired with `some exc` when a step
raised the exception `exc` (the RSSI read or the row write). -/
def detection_body (target_macs : List String) (p : Packet)
    (st : SnifferState) : SnifferState × Option String :=
  let mac := macOf p
  if mac ∈ target_macs then
    match p.rssi with
    | .error exc => (st, some exc)
    | .ok rssi =>
      let timestamp_ns := p.timestamp_ns
      let device_name := pyOrStr p.name ("Unknown")
      let st1 := { st with
        console := st.console ++ [ConsoleLine.eventLine timestamp_ns mac rssi device_name] }
      let st2 := { st1 with
        queue := queuePut st1.queue ⟨timestamp_ns, mac, rssi, device_name⟩ }
      match p.writeFails with
      | some exc => (st2, some exc)
      | none =>
        let st3 := { st2 with file := { st2.file with
          pending := st2.file.pending ++ [eventToRow ⟨timestamp_ns, mac, rssi, device_name⟩] } }
        (⟨st3.console, st3.queue, fileFlush st3.file⟩, none)
  else (st, none)

/-- `detection_callback`: run the body; `except Exception as exc:` catches
any raised exception and prints `Error processing advertisement: ...`. -/
def detection_callback (target_macs : List String) (p : Packet)
    (st : SnifferState) : SnifferState :=
  match detection_body target_macs p st with
  | (st1, none) => st1
  | (st1, some exc) =>
      { st1 with console := st1.console ++ [ConsoleLine.packetError exc] }

/-- Run `detection_callback` for every advertisement of a scan, in order. -/
def processPackets (target_macs : List String) (st : SnifferState) :
    List Packet → SnifferState
  | [] => st
  | p :: ps => processPackets target_macs (detection_callback target_macs p st) ps

/-- `getattr(config, "TARGET_MACS", [])`: the configured list when the
attribute exists, the empty list otherwise. -/
def configTargetMacs (cfg : Option (List String)) : List String :=
  cfg.getD []

/-- `{m.lower() for m in getattr(config, "TARGET_MACS", [])}`, modelled as
the list of lowered entries (only membership is ever used). -/
def target_macs_of (cfg : Option (List String)) : List String :=
  (configTargetMacs cfg).map pyLower

/-- The state right after `scan_loop` opened the CSV file, wrote the header
row (buffered, not yet flushed), computed `target_macs` and printed the
empty-watchlist notice when the set is empty: `EVENT_QUEUE` starts empty. -/
def initState (target_macs : List String) : SnifferState :=
  { console := if target_macs.isEmpty then [ConsoleLine.noTargets] else []
    queue := []
    file := { flushed := [], pending := [header] } }

/-- The capture pipeline of one run of `scan_loop`: watchlist from the
config module, initial state, then every advertisement in arrival order. -/
def runScan (cfg : Option (List String)) (ps : List Packet) : SnifferState :=
  processPackets (target_macs_of cfg) (initState (target_macs_of cfg)) ps

/-- How the infinite `while True: await asyncio.sleep(1)` loop ends: a
`KeyboardInterrupt` (a `BaseException`, so `except Exception` does not catch
it) or an `Exception` raised by the radio stack. -/
inductive LoopExit where
  | interrupt
  | failure (exc : String)
deriving Repr, DecidableEq

/-- The radio collaborator during one session: whether `scanner.start()`
raises, how the scan loop ends when start succeeded, and whether
`scanner.stop()` raises in the `finally:` block. -/
structure RadioEnv where
  startResult : Except String Unit
  loopExit : LoopExit
  stopResult : Except String Unit
deriving Repr, DecidableEq

/-- What `scan_loop` does after its `try/except/finally`: return normally,
or let the `KeyboardInterrupt` propagate to `main`. -/
inductive SessionOutcome where
  | returned
  | raisedInterrupt
deriving Repr, DecidableEq

/-- Observable result of the scanner lifecycle portion of `scan_loop`. -/
structure SessionResult where
  console : List ConsoleLine
  stopAttempted : Bool
  outcome : SessionOutcome
deriving Repr, DecidableEq

/-- The `finally:` block: `try: await scanner.stop() except Exception: pass`.
Whether the stop call succeeds or raises, nothing is printed and the
exception is swallowed. -/
def attemptStop (stopResult : Except String Unit) : List ConsoleLine :=
  match stopResult with
  | .ok _ => []
  | .error _ => []

/-- Lines 91-107 of `ble_sniffer.py`: start the scanner; on success print
the started banner and wait until the loop ends; `except Exception` catches
radio errors and prints them; `KeyboardInterrupt` propagates; the `finally:`
block always attempts `scanner.stop()`. -/
def scan_session (env : RadioEnv) : SessionResult :=
  let body : List ConsoleLine × SessionOutcome :=
    match env.startResult with
    | .error exc => ([ConsoleLine.scanError exc], SessionOutcome.returned)
    | .ok _ =>
      match env.loopExit with
      | .interrupt =>
          ([ConsoleLine.scanStarted], SessionOutcome.raisedInterrupt)
      | .failure exc =>
          ([ConsoleLine.scanStarted, ConsoleLine.scanError exc], SessionOutcome.returned)
  { console := body.1 ++ attemptStop env.stopResult
    stopAttempted := true
    outcome := body.2 }

/-- What escapes `asyncio.run(scan_loop())` into `main`'s handlers. -/
inductive PyRaise where
  | keyboardInterrupt
  | exc (msg : String)
deriving Repr, DecidableEq

/-- The environment of one process invocation, as `main` sees it: whether
`ensure_output_folder` / `open` raises before the scanner exists, and the
radio behaviour. -/
structure MainEnv where
  ensureResult : Except String Unit
  radio : RadioEnv
deriving Repr, DecidableEq

/-- `scan_loop` as observed from `main`: an output-location failure raises
before the scanner is created (no stop attempt); otherwise the session runs
and only a `KeyboardInterrupt` escapes. Returns the console lines, what
escaped, and whether `scanner.stop()` was attempted. -/
def scan_loop_run (env : MainEnv) : List ConsoleLine × Option PyRaise × Bool :=
  match env.ensureResult with
  | .error exc => ([], some (PyRaise.exc exc), false)
  | .ok _ =>
    let r := scan_session env.radio
    (r.console,
      match r.outcome with
      | .raisedInterrupt => some PyRaise.keyboardInterrupt
      | .returned => none,
      r.stopAttempted)

/-- Result of the whole process: console output and exit status. -/
structure MainResult where
  console : List ConsoleLine
  exitCode : Nat
deriving Repr, DecidableEq

/-- `main()` plus the process exit: `KeyboardInterrupt` and every
`Exception` are caught and printed, then `main` returns `None` and the
interpreter exits with status 0. -/
def main_run (env : MainEnv) : MainResult :=
  match scan_loop_run env with
  | (console, none, _) => { console := console, exitCode := 0 }
  | (console, some PyRaise.keyboardInterrupt, _) =>
      { console := console ++ [ConsoleLine.stoppedByUser], exitCode := 0 }
  | (console, some (PyRaise.exc msg), _) =>
      { console := console ++ [ConsoleLine.unexpectedError msg], exitCode := 0 }

/-- The `datetime.now()` reading used by `ensure_output_folder`; the
`microsecond` field exists on the Python object but is not consulted by the
format string `%Y%m%d_%H%M%S`. -/
structure PyDatetime where
  year : Nat
  month : Nat
  day : Nat
  hour : Nat
  minute : Nat
  second : Nat
  microsecond : Nat
deriving Repr, DecidableEq

/-- Zero-pad to two digits (`%m %d %H %M %S`). -/
def pad2 (n : Nat) : String :=
  if n < 10 then "0" ++ toString n else toString n

/-- Zero-pad to four digits (`%Y`). -/
def pad4 (n : Nat) : String :=
  if n < 10 then "000" ++ toString n
  else if n < 100 then "00" ++ toString n
  else if n < 1000 then "0" ++ toString n
  else toString n

/-- `datetime.now().strftime("%Y%m%d_%H%M%S")`: second resolution, the
microsecond field is ignored. -/
def run_timestamp_of (t : PyDatetime) : String :=
  pad4 t.year ++ pad2 t.month ++ pad2 t.day ++ "_" ++
    pad2 t.hour ++ pad2 t.minute ++ pad2 t.second

/-- `ensure_output_folder()`: build
`BASE_DIR/data/runs/<ts>/ble_events_<ts>.csv` from the formatted timestamp
(`os.makedirs(..., exist_ok=True)` never fails on an existing folder, so an
already-used timestamp is silently reused). -/
def ensure_output_folder (baseDir : String) (now : PyDatetime) : String :=
  let run_timestamp := run_timestamp_of now
  baseDir ++ "/data/runs/" ++ run_timestamp ++ "/ble_events_" ++ run_timestamp ++ ".csv"

/-- The RSSI value carried by an `advertisement_data.rssi` read that did not
raise (the default is irrelevant: it is only used under `rssiOk`). -/
def rssiVal : Except String Int → Int
  | .ok r => r
  | .error _ => 0

/-- Whether the `advertisement_data.rssi` read succeeds. -/
def rssiOk : Except String Int → Bool
  | .ok _ => true
  | .error _ => false

/-- The event record the callback builds for a packet. -/
def eventOf (p : Packet) : Event :=
  { timestamp_ns := p.timestamp_ns
    mac := macOf p
    rssi := rssiVal p.rssi
    name := pyOrStr p.name ("Unknown") }

/-- A packet whose processing raises no exception: the RSSI read succeeds
and the CSV row write does not fail. -/
def packetOk (p : Packet) : Bool :=
  rssiOk p.rssi && p.writeFails.isNone

/-- The events of the packets that pass the watchlist filter, in capture
order (assuming no exception, i.e. under `packetOk`). -/
def matchedEvents (targets : List String) : List Packet → List Event
  | [] => []
  | p :: ps =>
      if macOf p ∈ targets then eventOf p :: matchedEvents targets ps
      else matchedEvents targets ps

/-- The events that reach `EVENT_QUEUE`: the enqueue happens after the RSSI
read but before the CSV write, so a packet contributes exactly when it is
watched and its RSSI read succeeded. -/
def queuedEvents (targets : List String) : List Packet → List Event
  | [] => []
  | p :: ps =>
      if macOf p ∈ targets ∧ rssiOk p.rssi = true then
        eventOf p :: queuedEvents targets ps
      else queuedEvents targets ps

theorem queuePutAll_append (items es : List Event) :
    queuePutAll items es = items ++ es := by
  induction es generalizing items with
  | nil => simp [queuePutAll]
  | cons e es ih =>
      show queuePutAll (queuePut items e) es = _
      rw [ih, queuePut, List.append_assoc]
      rfl

theorem processPackets_cons (target_macs : List String) (p : Packet)
    (ps : List Packet) (st : SnifferState) :
    processPackets target_macs st (p :: ps) =
      processPackets target_macs (detection_callback target_macs p st) ps := rfl

theorem detection_callback_of_not_mem (target_macs : List String) (p : Packet)
    (st : SnifferState) (h : macOf p ∉ target_macs) :
    detection_callback target_macs p st = st := by
  simp [detection_callback, detection_body, h]

theorem detection_callback_of_rssi_error (target_macs : List String) (p : Packet)
    (st : SnifferState) (exc : String) (h : macOf p ∈ target_macs)
    (he : p.rssi = Except.error exc) :
    detection_callback target_macs p st =
      { st with console := st.console ++ [ConsoleLine.packetError exc] } := by
  simp [detection_callback, detection_body, h, he]

theorem detection_callback_of_write_error (target_macs : List String) (p : Packet)
    (st : SnifferState) (r : Int) (exc : String) (h : macOf p ∈ target_macs)
    (hr : p.rssi = Except.ok r) (hw : p.writeFails = some exc) :
    detection_callback target_macs p st =
      { st with
        console := st.console ++
          [ConsoleLine.eventLine p.timestamp_ns (macOf p) r (pyOrStr p.name ("Unknown")),
           ConsoleLine.packetError exc]
        queue := st.queue ++ [eventOf p] } := by
  simp [detection_callback, detection_body, h, hr, hw, queuePut, eventOf, rssiVal]

theorem detection_callback_of_ok (target_macs : List String) (p : Packet)
    (st : SnifferState) (r : Int) (h : macOf p ∈ target_macs)
    (hr : p.rssi = Except.ok r) (hw : p.writeFails = none) :
    detection_callback target_macs p st =
      { console := st.console ++
          [ConsoleLine.eventLine p.timestamp_ns (macOf p) r (pyOrStr p.name ("Unknown"))]
        queue := st.queue ++ [eventOf p]
        file := { flushed := st.file.flushed ++ st.file.pending ++ [eventToRow (eventOf p)]
                  pending := [] } } := by
  simp [detection_callback, detection_body, h, hr, hw, queuePut, eventOf, rssiVal,
    fileFlush, List.append_assoc]

theorem packetOk_parts {p : Packet} (hp : packetOk p = true) :
    (∃ r : Int, p.rssi = Except.ok r) ∧ p.writeFails = none := by
  rw [packetOk, Bool.and_eq_true] at hp
  obtain ⟨hp1, hp2⟩ := hp
  refine ⟨?_, Option.isNone_iff_eq_none.mp hp2⟩
  cases hr : p.rssi with
  | ok r => exact ⟨r, rfl⟩
  | error e => rw [hr] at hp1; exact absurd hp1 (by simp [rssiOk])

theorem processPackets_queue (target_macs : List String) :
    ∀ (ps : List Packet) (st : SnifferState),
      (processPackets target_macs st ps).queue = st.queue ++ queuedEvents target_macs ps := by
  intro ps
  induction ps with
  | nil => intro st; simp [processPackets, queuedEvents]
  | cons p ps ih =>
      intro st
      rw [processPackets_cons]
      by_cases h : macOf p ∈ target_macs
      · cases hr : p.rssi with
        | error exc =>
            rw [detection_callback_of_rssi_error target_macs p st exc h hr, ih]
            simp [queuedEvents, h, hr, rssiOk]
        | ok r =>
            cases hw : p.writeFails with
            | none =>
                rw [detection_callback_of_ok target_macs p st r h hr hw, ih]
                simp [queuedEvents, h, hr, rssiOk]
            | some exc =>
                rw [detection_callback_of_write_error target_macs p st r exc h hr hw, ih]
                simp [queuedEvents, h, hr, rssiOk]
      · rw [detection_callback_of_not_mem target_macs p st h, ih]
        simp [queuedEvents, h]

theorem processPackets_file (target_macs : List String) :
    ∀ (ps : List Packet) (st : SnifferState), (∀ p ∈ ps, packetOk p = true) →
      ((processPackets target_macs st ps).file.flushed ++
          (processPackets target_macs st ps).file.pending =
        (st.file.flushed ++ st.file.pending) ++
          (matchedEvents target_macs ps).map eventToRow) ∧
      ((processPackets target_macs st ps).file.pending =
        if matchedEvents target_macs ps = [] then st.file.pending else []) := by
  intro ps
  induction ps with
  | nil => intro st _; simp [processPackets, matchedEvents]
  | cons p ps ih =>
      intro st hok
      have hp := packetOk_parts (hok p (List.mem_cons_self p ps))
      obtain ⟨⟨r, hr⟩, hw⟩ := hp
      have hps : ∀ q ∈ ps, packetOk q = true :=
        fun q hq => hok q (List.mem_cons_of_mem p hq)
      rw [processPackets_cons]
      by_cases h : macOf p ∈ target_macs
      · rw [detection_callback_of_ok target_macs p st r h hr hw]
        obtain ⟨ih1, ih2⟩ := ih _ hps
        constructor
        · rw [ih1]; simp [matchedEvents, h]
        · rw [ih2]; simp [matchedEvents, h]
      · rw [detection_callback_of_not_mem target_macs p st h]
        obtain ⟨ih1, ih2⟩ := ih st hps
        exact ⟨by rw [ih1]; simp [matchedEvents, h],
               by rw [ih2]; simp [matchedEvents, h]⟩

/-- The filtering invariant: everything a consumer can see (queue entries,
console event lines, CSV rows other than the header) carries an identifier
that is in the watchlist. -/
def StateOk (target_macs : List String) (st : SnifferState) : Prop :=
  (∀ e ∈ st.queue, e.mac ∈ target_macs) ∧
  (∀ t m r n, ConsoleLine.eventLine t m r n ∈ st.console → m ∈ target_macs) ∧
  (∀ row ∈ st.file.flushed ++ st.file.pending,
    row = header ∨ ∃ e : Event, e.mac ∈ target_macs ∧ row = eventToRow e)

theorem stateOk_init (target_macs : List String) :
    StateOk target_macs (initState target_macs) := by
  refine ⟨?_, ?_, ?_⟩
  · intro e he; simp [initState] at he
  · intro t m r n hmem
    by_cases h : target_macs.isEmpty <;> simp [initState, h] at hmem
  · intro row hrow
    simp [initState] at hrow
    exact Or.inl hrow

theorem stateOk_callback (target_macs : List String) (p : Packet)
    (st : SnifferState) (hst : StateOk target_macs st) :
    StateOk target_macs (detection_callback target_macs p st) := by
  obtain ⟨hq, hc, hf⟩ := hst
  by_cases h : macOf p ∈ target_macs
  · cases hr : p.rssi with
    | error exc =>
        rw [detection_callback_of_rssi_error target_macs p st exc h hr]
        refine ⟨hq, ?_, hf⟩
        intro t m r n hmem
        rcases List.mem_append.mp hmem with hmem | hmem
        · exact hc t m r n hmem
        · simp at hmem
    | ok r =>
        cases hw : p.writeFails with
        | some exc =>
            rw [detection_callback_of_write_error target_macs p st r exc h hr hw]
            refine ⟨?_, ?_, hf⟩
            · intro e he
              rcases List.mem_append.mp he with he | he
              · exact hq e he
              · rw [List.mem_singleton.mp he]; exact h
            · intro t m r' n hmem
              rcases List.mem_append.mp hmem with hmem | hmem
              · exact hc t m r' n hmem
              · simp only [List.mem_cons, List.mem_singleton, List.not_mem_nil,
                  or_false] at hmem
                rcases hmem with h1 | h1
                · injection h1 with h1t h1m h1r h1n
                  rw [h1m]; exact h
                · exact absurd h1 (by simp)
        | none =>
            rw [detection_callback_of_ok target_macs p st r h hr hw]
            refine ⟨?_, ?_, ?_⟩
            · intro e he
              rcases List.mem_append.mp he with he | he
              · exact hq e he
              · rw [List.mem_singleton.mp he]; exact h
            · intro t m r' n hmem
              rcases List.mem_append.mp hmem with hmem | hmem
              · exact hc t m r' n hmem
              · injection List.mem_singleton.mp hmem with h1t h1m h1r h1n
                rw [h1m]; exact h
            · intro row hrow
              simp only [List.append_nil, List.append_assoc, List.mem_append,
                List.mem_singleton] at hrow
              rcases hrow with hrow | hrow | hrow
              · exact hf row (List.mem_append.mpr (Or.inl hrow))
              · exact hf row (List.mem_append.mpr (Or.inr hrow))
              · exact Or.inr ⟨eventOf p, h, hrow⟩
  · rw [detection_callback_of_not_mem target_macs p st h]
    exact ⟨hq, hc, hf⟩

theorem stateOk_processPackets (target_macs : List String) :
    ∀ (ps : List Packet) (st : SnifferState), StateOk target_macs st →
      StateOk target_macs (processPackets target_macs st ps) := by
  intro ps
  induction ps with
  | nil => intro st hst; exact hst
  | cons p ps ih =>
      intro st hst
      rw [processPackets_cons]
      exact ih _ (stateOk_callback target_macs p st hst)

theorem processPackets_nil_targets :
    ∀ (ps : List Packet) (st : SnifferState), processPackets [] st ps = st := by
  intro ps
  induction ps with
  | nil => intro st; rfl
  | cons p ps ih =>
      intro st
      rw [processPackets_cons,
        detection_callback_of_not_mem [] p st (List.not_mem_nil _)]
      exact ih st

/-- Character lists that agree up to letter case, position by position. -/
def caseEqChars : List Char → List Char → Bool
  | [], [] => true
  | a :: as, b :: bs => (a.toLower == b.toLower) && caseEqChars as bs
  | _, _ => false

/-- Raw identifiers that differ only in letter case: same length, and at
every position the characters coincide after lowercasing. -/
def sameUpToCase (r1 r2 : String) : Bool :=
  caseEqChars r1.data r2.data

theorem caseEqChars_map_toLower :
    ∀ as bs : List Char, caseEqChars as bs = true →
      as.map Char.toLower = bs.map Char.toLower := by
  intro as
  induction as with
  | nil => intro bs hb; cases bs with
      | nil => rfl
      | cons b bs => simp [caseEqChars] at hb
  | cons a as ih =>
      intro bs hb
      cases bs with
      | nil => simp [caseEqChars] at hb
      | cons b bs =>
          rw [caseEqChars, Bool.and_eq_true] at hb
          obtain ⟨h1, h2⟩ := hb
          simp only [List.map_cons]
          rw [eq_of_beq h1, ih bs h2]

/-- A sample advertisement from a watched device whose processing succeeds. -/
def samplePacket : Packet :=
  { address := some ("AA"), name := some ("Dev"), rssi := Except.ok (-42),
    timestamp_ns := 7, writeFails := none }

/-- A sample advertisement from a watched device whose RSSI read raises. -/
def badRssiPacket : Packet :=
  { address := some ("AA"), name := none, rssi := Except.error ("boom"),
    timestamp_ns := 0, writeFails := none }

/-- Claim C1: An event record (console line, queue entry, CSV row) is produced
only for packets whose normalized identifier is in the watchlist: after
processing any packet sequence, every queue entry and every console event
line carries a watched MAC, and every file row other than the header is the
row of a watched event. -/
theorem claim_C1_events_only_from_watchlist (target_macs : List String)
    (ps : List Packet) :
    (∀ e ∈ (processPackets target_macs (initState target_macs) ps).queue,
        e.mac ∈ target_macs) ∧
    (∀ t m r n, ConsoleLine.eventLine t m r n ∈
        (processPackets target_macs (initState target_macs) ps).console →
        m ∈ target_macs) ∧
    (∀ row ∈ (processPackets target_macs (initState target_macs) ps).file.flushed ++
        (processPackets target_macs (initState target_macs) ps).file.pending,
      row = header ∨ ∃ e : Event, e.mac ∈ target_macs ∧ row = eventToRow e) :=
  stateOk_processPackets target_macs ps (initState target_macs)
    (stateOk_init target_macs)

/-- Witness for C1 at a concrete run: the one enqueued event is watched. -/
theorem claim_C1_witness :
    ({ timestamp_ns := 7, mac := "aa", rssi := -42, name := "Dev" } : Event).mac ∈
      ["aa"] :=
  (claim_C1_events_only_from_watchlist ["aa"] [samplePacket]).1
    { timestamp_ns := 7, mac := "aa", rssi := -42, name := "Dev" } (by decide)

/-- Claim C2 counterexample: The event channel of the code has no finite
capacity bound: `EVENT_QUEUE = Queue()` is unbounded, so no `N` bounds the
queue length over all runs of puts. -/
theorem claim_C2_counterexample :
    ¬ ∃ N : Nat, ∀ es : List Event, (queuePutAll [] es).length ≤ N := by
  rintro ⟨N, hN⟩
  have h := hN (List.replicate (N + 1)
    { timestamp_ns := 0, mac := "", rssi := 0, name := "" })
  rw [queuePutAll_append, List.nil_append, List.length_replicate] at h
  omega

/-- Claim C2 amended: `EVENT_QUEUE` is created with the default `maxsize = 0`,
i.e. infinite capacity: an enqueue always appends and never drops (there is
no drop counter in the program), and the queue receives exactly the watched
events whose RSSI read succeeded, in capture order. -/
theorem claim_C2_amended :
    EVENT_QUEUE_maxsize = 0 ∧
    (∀ items es : List Event,
      queuePutAll items es = items ++ es ∧
      (queuePutAll items es).length = items.length + es.length) ∧
    (∀ (target_macs : List String) (ps : List Packet) (st : SnifferState),
      (processPackets target_macs st ps).queue =
        st.queue ++ queuedEvents target_macs ps) := by
  refine ⟨rfl, ?_, ?_⟩
  · intro items es
    refine ⟨queuePutAll_append items es, ?_⟩
    rw [queuePutAll_append, List.length_append]
  · intro target_macs ps st
    exact processPackets_queue target_macs ps st

/-- Claim C3 counterexample: The header row the code writes is
`timestamp_ns, mac, rssi, name`, not the claimed
`timestamp_ns, identifier, signal_strength, name`. -/
theorem claim_C3_counterexample :
    header ≠ ["timestamp_ns", "identifier", "signal_strength", "name"] := by
  decide

/-- Claim C3 amended: For a run in which no per-packet exception occurs, the
file holds the header row `timestamp_ns, mac, rssi, name` followed by
exactly one row per matched event in capture order, and after each matched
event everything written so far has been flushed (only the header can sit
unflushed, and only while no event has been written yet). -/
theorem claim_C3_amended (target_macs : List String) (ps : List Packet)
    (h : ∀ p ∈ ps, packetOk p = true) :
    ((processPackets target_macs (initState target_macs) ps).file.flushed ++
        (processPackets target_macs (initState target_macs) ps).file.pending =
      header :: (matchedEvents target_macs ps).map eventToRow) ∧
    ((processPackets target_macs (initState target_macs) ps).file.pending =
      if matchedEvents target_macs ps = [] then [header] else []) := by
  obtain ⟨h1, h2⟩ := processPackets_file target_macs ps (initState target_macs) h
  constructor
  · rw [h1]; simp [initState]
  · rw [h2]; simp [initState]

/-- Witness for C3 at a concrete run with one matched packet. -/
theorem claim_C3_witness :
    ((processPackets ["aa"] (initState ["aa"]) [samplePacket]).file.flushed ++
        (processPackets ["aa"] (initState ["aa"]) [samplePacket]).file.pending =
      header :: (matchedEvents ["aa"] [samplePacket]).map eventToRow) ∧
    ((processPackets ["aa"] (initState ["aa"]) [samplePacket]).file.pending =
      if matchedEvents ["aa"] [samplePacket] = [] then [header] else []) :=
  claim_C3_amended ["aa"] [samplePacket] (by decide)

/-- Claim C4 counterexample: Normalization does not trim: two raw identifiers
differing only in surrounding whitespace normalize to different strings. -/
theorem claim_C4_counterexample :
    pyLower (" 60:c0:bf:49:2a:e9") ≠ pyLower ("60:c0:bf:49:2a:e9") := by
  decide

/-- Claim C4 amended: Normalization lowercases the raw identifier (and does
nothing else): raw identifiers differing only in letter case normalize to
the same string, and membership in the watchlist built by the program is
therefore case-insensitive. -/
theorem claim_C4_amended (r1 r2 : String) (h : sameUpToCase r1 r2 = true) :
    pyLower r1 = pyLower r2 ∧
    ∀ cfgMacs : List String,
      (pyLower r1 ∈ target_macs_of (some cfgMacs) ↔
        pyLower r2 ∈ target_macs_of (some cfgMacs)) := by
  have hl : pyLower r1 = pyLower r2 :=
    congrArg String.mk (caseEqChars_map_toLower r1.data r2.data h)
  exact ⟨hl, fun cfgMacs => by rw [hl]⟩

/-- Witness for C4 at two concrete identifiers differing only in case. -/
theorem claim_C4_witness :
    pyLower ("AA:bb:CC:dd:EE:ff") = pyLower ("aa:BB:cc:DD:ee:FF") :=
  (claim_C4_amended ("AA:bb:CC:dd:EE:ff") ("aa:BB:cc:DD:ee:FF") (by decide)).1

/-- Claim C5: An exception raised while processing one packet is caught at the
callback boundary and logged (`Error processing advertisement: ...`), and
the scan continues: the remaining packets are processed exactly as if the
callback had returned normally. -/
theorem claim_C5_packet_errors_contained (target_macs : List String)
    (p : Packet) (st : SnifferState) (exc : String)
    (h : (detection_body target_macs p st).2 = some exc) :
    (detection_callback target_macs p st =
      { (detection_body target_macs p st).1 with
        console := (detection_body target_macs p st).1.console ++
          [ConsoleLine.packetError exc] }) ∧
    (∀ ps : List Packet,
      processPackets target_macs st (p :: ps) =
        processPackets target_macs (detection_callback target_macs p st) ps) := by
  refine ⟨?_, fun ps => rfl⟩
  rcases hb : detection_body target_macs p st with ⟨st1, o⟩
  rw [hb] at h
  simp only at h
  subst h
  simp [detection_callback, hb]

/-- Witness for C5: a packet whose RSSI read raises is logged and the
callback still returns a state. -/
theorem claim_C5_witness :
    detection_callback ["aa"] badRssiPacket (initState ["aa"]) =
      { (detection_body ["aa"] badRssiPacket (initState ["aa"])).1 with
        console := (detection_body ["aa"] badRssiPacket (initState ["aa"])).1.console ++
          [ConsoleLine.packetError ("boom")] } :=
  (claim_C5_packet_errors_contained ["aa"] badRssiPacket (initState ["aa"])
    ("boom") (by decide)).1

/-- Claim C6 counterexample: When `scanner.stop()` itself raises, nothing is
logged: the observable console of the session is just the start banner, and
the whole session result is identical to the one where the stop succeeded
(so the failure leaves no trace). -/
theorem claim_C6_counterexample :
    (scan_session
        { startResult := Except.ok (), loopExit := LoopExit.interrupt,
          stopResult := Except.error ("stop failed") }).console =
      [ConsoleLine.scanStarted] ∧
    scan_session
        { startResult := Except.ok (), loopExit := LoopExit.interrupt,
          stopResult := Except.error ("stop failed") } =
      scan_session
        { startResult := Except.ok (), loopExit := LoopExit.interrupt,
          stopResult := Except.ok () } := by
  decide

/-- Claim C6 amended: On every exit path of the session (start failure, radio
error while running, or interrupt) the `finally:` block attempts a radio
stop, and a failing stop never prevents the session from reaching its final
state: the session result is exactly the same as with a successful stop —
the stop failure is swallowed silently rather than logged. -/
theorem claim_C6_amended (env : RadioEnv) :
    (scan_session env).stopAttempted = true ∧
    (∀ exc : String,
      scan_session { env with stopResult := Except.error exc } =
        scan_session { env with stopResult := Except.ok () }) := by
  refine ⟨rfl, ?_⟩
  intro exc
  rcases env with ⟨sr, le, st⟩
  cases sr <;> cases le <;> rfl

/-- Claim C7 counterexample: The claim asks for a non-zero exit status on a
fatal radio failure or an output-location failure; the process exits 0 in
both cases (every error is caught and printed by `main`). -/
theorem claim_C7_counterexample :
    (main_run
        { ensureResult := Except.ok (),
          radio := { startResult := Except.error ("No BLE adapter"),
                     loopExit := LoopExit.interrupt,
                     stopResult := Except.ok () } }).exitCode = 0 ∧
    (main_run
        { ensureResult := Except.error ("Permission denied"),
          radio := { startResult := Except.ok (),
                     loopExit := LoopExit.interrupt,
                     stopResult := Except.ok () } }).exitCode = 0 := by
  decide

/-- Claim C7 amended: The process exit status is 0 in every case: on a user
interrupt, but also on a fatal radio failure and on a failure to create the
output location — `main` catches `KeyboardInterrupt` and every `Exception`,
prints a message, and returns normally. -/
theorem claim_C7_amended (env : MainEnv) : (main_run env).exitCode = 0 := by
  rcases env with ⟨er, sr, le, st⟩
  cases er <;> cases sr <;> cases le <;> rfl

/-- Claim C8 counterexample: Two distinct invocation times (here differing
only in the microsecond field, i.e. two runs within the same second) yield
the same output path, so the computed location is not unique per run. -/
theorem claim_C8_counterexample :
    ({ year := 2026, month := 10, day := 12, hour := 3, minute := 4,
       second := 5, microsecond := 0 } : PyDatetime) ≠
      { year := 2026, month := 10, day := 12, hour := 3, minute := 4,
        second := 5, microsecond := 500000 } ∧
    ensure_output_folder ("/app")
        { year := 2026, month := 10, day := 12, hour := 3, minute := 4,
          second := 5, microsecond := 0 } =
      ensure_output_folder ("/app")
        { year := 2026, month := 10, day := 12, hour := 3, minute := 4,
          second := 5, microsecond := 500000 } := by
  decide

/-- Claim C8 amended: The output path is determined by the second-resolution
formatted timestamp alone: two invocations whose formatted timestamps
differ get different paths (so runs in different seconds never collide),
while two invocations within the same second share one path. -/
theorem claim_C8_amended (baseDir : String) (t1 t2 : PyDatetime)
    (h : run_timestamp_of t1 ≠ run_timestamp_of t2) :
    ensure_output_folder baseDir t1 ≠ ensure_output_folder baseDir t2 := by
  intro heq
  apply h
  have hd := congrArg String.data heq
  rw [ensure_output_folder, ensure_output_folder] at hd
  simp only [String.data_append, List.append_assoc] at hd
  have h1 := List.append_cancel_left hd
  have h2 := List.append_cancel_left h1
  have hlen : (run_timestamp_of t1).data.length = (run_timestamp_of t2).data.length := by
    have hl := congrArg List.length h2
    simp only [List.length_append] at hl
    omega
  obtain ⟨h3, -⟩ := List.append_inj h2 hlen
  exact String.ext h3

/-- Witness for C8: two invocations one second apart get different paths. -/
theorem claim_C8_witness :
    ensure_output_folder ("/app")
        { year := 2026, month := 10, day := 12, hour := 3, minute := 4,
          second := 5, microsecond := 0 } ≠
      ensure_output_folder ("/app")
        { year := 2026, month := 10, day := 12, hour := 3, minute := 4,
          second := 6, microsecond := 0 } :=
  claim_C8_amended ("/app")
    { year := 2026, month := 10, day := 12, hour := 3, minute := 4,
      second := 5, microsecond := 0 }
    { year := 2026, month := 10, day := 12, hour := 3, minute := 4,
      second := 6, microsecond := 0 } (by decide)

/-- Claim C9: With an empty watchlist the run still starts, the startup notice
is printed, and for every incoming packet sequence no event is ever
captured: the queue stays empty, the console holds only the notice, and the
file never holds anything beyond the header row. -/
theorem claim_C9_empty_watchlist (ps : List Packet) :
    (runScan (some []) ps).console = [ConsoleLine.noTargets] ∧
    (runScan (some []) ps).queue = [] ∧
    (runScan (some []) ps).file.flushed ++ (runScan (some []) ps).file.pending =
      [header] := by
  have h : runScan (some []) ps = initState [] := by
    rw [runScan]
    exact processPackets_nil_targets ps (initState (target_macs_of (some [])))
  rw [h]
  exact ⟨rfl, rfl, rfl⟩

/-- Claim C10: When the config module has no `TARGET_MACS` attribute at all,
`getattr(config, "TARGET_MACS", [])` supplies the empty list, and the whole
capture pipeline behaves exactly as with an empty watchlist: same states
throughout, the empty-watchlist notice printed, no packet ever matched. -/
theorem claim_C10_missing_attribute (ps : List Packet) :
    runScan none ps = runScan (some []) ps ∧
    (runScan none ps).console = [ConsoleLine.noTargets] ∧
    (runScan none ps).queue = [] := by
  have h : runScan none ps = initState [] := by
    rw [runScan]
    exact processPackets_nil_targets ps (initState (target_macs_of none))
  have h2 : runScan (some []) ps = initState [] := by
    rw [runScan]
    exact processPackets_nil_targets ps (initState (target_macs_of (some [])))
  rw [h, h2]
  exact ⟨rfl, rfl, rfl⟩
